import Mathlib

/-!
Verification of the DoRA (Weight-Decomposed Low-Rank Adaptation) embedding
layer (`dora_embeddings.py`).  Matrices are embedded as curried functions
`Fin R → Fin C → ℝ`; the layer object is a structure whose weight tensors are
`Option`-valued (`none` models the un-built state in which the Python
attributes are `None`).  Fallible methods return `Except DoRAError`.
-/

noncomputable section

/-- The numerical floor `1e-8` used on column norms in
`_get_effective_embeddings` (line 218 of the source). -/
def epsFloor : ℝ := 1e-8

/-- `ops.matmul(lora_a, lora_b) * scaling` (source line 208): the scaled
low-rank correction, shape (R, C). -/
def loraAdaptation {R C rank : ℕ} (A : Fin R → Fin rank → ℝ)
    (B : Fin rank → Fin C → ℝ) (s : ℝ) : Fin R → Fin C → ℝ :=
  fun i j => (∑ k, A i k * B k j) * s

/-- `combined_embeddings = embeddings + lora_adaptation` (source line 211). -/
def combinedEmbeddings {R C rank : ℕ} (W0 : Fin R → Fin C → ℝ)
    (A : Fin R → Fin rank → ℝ) (B : Fin rank → Fin C → ℝ) (s : ℝ) :
    Fin R → Fin C → ℝ :=
  fun i j => W0 i j + loraAdaptation A B s i j

/-- `ops.sqrt(ops.sum(ops.square(M), axis=0))` (source lines 214-216), and
also `np.linalg.norm(M, axis=0)` (source line 297): the column-wise L2
norms of a matrix. -/
def columnNorms {R C : ℕ} (M : Fin R → Fin C → ℝ) : Fin C → ℝ :=
  fun j => Real.sqrt (∑ i, M i j ^ 2)

/-- `ops.maximum(column_norms, 1e-8)` (source lines 217-219). -/
def flooredColumnNorms {R C : ℕ} (M : Fin R → Fin C → ℝ) : Fin C → ℝ :=
  fun j => max (columnNorms M j) epsFloor

/-- `DoRAEmbedding._get_effective_embeddings` (source lines 200-229):
`(W0 + (A @ B) * s) / max(column_norms, 1e-8) * magnitude`. -/
def getEffectiveEmbeddings {R C rank : ℕ} (W0 : Fin R → Fin C → ℝ)
    (A : Fin R → Fin rank → ℝ) (B : Fin rank → Fin C → ℝ)
    (m : Fin C → ℝ) (s : ℝ) : Fin R → Fin C → ℝ :=
  fun i j =>
    combinedEmbeddings W0 A B s i j /
      flooredColumnNorms (combinedEmbeddings W0 A B s) j * m j

/-- The effective-matrix algorithm transcribed from the specification text
(§4.1 steps 1-6): `delta`, `combined`, per-column norm, `1e-8` floor,
`direction`, magnitude rescale. -/
def effectiveMatrixSpec {R C rank : ℕ} (W0 : Fin R → Fin C → ℝ)
    (A : Fin R → Fin rank → ℝ) (B : Fin rank → Fin C → ℝ)
    (m : Fin C → ℝ) (s : ℝ) : Fin R → Fin C → ℝ :=
  let delta : Fin R → Fin C → ℝ := fun i j => (∑ k, A i k * B k j) * s
  let combined : Fin R → Fin C → ℝ := fun i j => W0 i j + delta i j
  let norm : Fin C → ℝ := fun j => Real.sqrt (∑ i, combined i j ^ 2)
  let floored : Fin C → ℝ := fun j => max (norm j) epsFloor
  let direction : Fin R → Fin C → ℝ := fun i j => combined i j / floored j
  fun i j => direction i j * m j

/-- The four tensors allocated by `DoRAEmbedding.build` (source lines
133-168): frozen `embeddings` W0, `lora_a` A, `lora_b` B, `magnitude` m. -/
structure DoRAWeights (R C rank : ℕ) where
  embeddings : Fin R → Fin C → ℝ
  lora_a : Fin R → Fin rank → ℝ
  lora_b : Fin rank → Fin C → ℝ
  magnitude : Fin C → ℝ

/-- The `DoRAEmbedding` layer object.  `weights = none` models the un-built
state in which the Python weight attributes are still `None`. -/
structure DoRAEmbedding (R C rank : ℕ) where
  alpha : ℝ
  sparse : Bool
  weights : Option (DoRAWeights R C rank)

/-- Error outcomes of the layer's fallible operations.  `noneTypeError`
models the host-language `TypeError` raised when a method touches the
`None` weight attributes of an un-built layer (no deliberate check). -/
inductive DoRAError where
  | invalidParameter
  | shapeMismatch
  | notBuilt
  | invalidArgument
  | noneTypeError
deriving DecidableEq

/-- `DoRAEmbedding._get_effective_embeddings` as a layer method, with
`scaling = alpha / rank` (source line 122).  The source performs no
built-check: on an un-built layer `ops.matmul(None, None)` crashes, modelled
by `noneTypeError`. -/
def getEffectiveEmbeddingsOp {R C rank : ℕ} (l : DoRAEmbedding R C rank) :
    Except DoRAError (Fin R → Fin C → ℝ) :=
  match l.weights with
  | none => .error .noneTypeError
  | some w =>
      .ok (getEffectiveEmbeddings w.embeddings w.lora_a w.lora_b w.magnitude
        (l.alpha / (rank : ℝ)))

/-- `DoRAEmbedding.merge_weights` (source lines 259-268): returns the
dictionary `{"embeddings": effective}`; modelled as the matrix itself.
The source performs no built-check here either. -/
def mergeWeights {R C rank : ℕ} (l : DoRAEmbedding R C rank) :
    Except DoRAError (Fin R → Fin C → ℝ) :=
  getEffectiveEmbeddingsOp l

/-- `DoRAEmbedding.call` (source lines 170-198): computes the effective
matrix, then performs `ops.take(effective, inputs, axis=0)`; the
`sparse` and non-`sparse` branches are textually identical lookups. -/
def DoRAEmbedding.call {R C rank : ℕ} (l : DoRAEmbedding R C rank)
    (inputs : List (Fin R)) : Except DoRAError (List (Fin C → ℝ)) :=
  match l.weights with
  | none => .error .noneTypeError
  | some w =>
      let effective := getEffectiveEmbeddings w.embeddings w.lora_a w.lora_b
        w.magnitude (l.alpha / (rank : ℝ))
      if l.sparse then .ok (inputs.map fun t => effective t)
      else .ok (inputs.map fun t => effective t)

/-- `DoRAEmbedding.load_pretrained_embeddings` (source lines 282-298), in
state-passing style: the second component is the state of the layer after
the call.  The shape check precedes both assignments, so on mismatch the
layer is returned unchanged; on success `embeddings` is overwritten and
`magnitude` is set to the column norms of the loaded matrix. -/
def loadPretrainedEmbeddings {R C rank : ℕ} (l : DoRAEmbedding R C rank)
    (Rp Cp : ℕ) (P : Fin Rp → Fin Cp → ℝ) :
    Except DoRAError Unit × DoRAEmbedding R C rank :=
  match l.weights with
  | none => (.error .noneTypeError, l)
  | some w =>
      if h : Rp = R ∧ Cp = C then
        let Pc : Fin R → Fin C → ℝ :=
          fun i j => P (Fin.cast h.1.symm i) (Fin.cast h.2.symm j)
        (.ok (),
          { l with weights := some { w with
              embeddings := Pc, magnitude := columnNorms Pc } })
      else (.error .shapeMismatch, l)

/-- `np.concatenate([X, Y], axis=0)` (source lines 390-395), indexed over
the target row count `V`: rows below `R` come from `X`, the rest from `Y`. -/
def expandRows {R V : ℕ} {α : Type} (X : Fin R → α) (Y : Fin (V - R) → α) :
    Fin V → α :=
  fun i =>
    if h : (i : ℕ) < R then X ⟨i, h⟩
    else Y ⟨(i : ℕ) - R, by have hi := i.isLt; omega⟩

/-- `DoRAEmbedding.expand_vocabulary` (source lines 300-403), in
state-passing style (second component: `self` after the call — the method
never writes to `self`).  Checks in source order: the size guard (line 316),
the built guard (line 322), then the shape guard on caller-supplied
`new_token_embeddings` (line 368).  `freshEmbeddings` and `freshLoraARows`
stand for the values sampled from the initializers (lines 362, 383).  On
success a brand-new layer is returned with the concatenated `embeddings`
and `lora_a` and with `lora_b` and `magnitude` copied unchanged. -/
def expandVocabulary {R C rank : ℕ} (l : DoRAEmbedding R C rank)
    (newVocabSize : ℕ)
    (newTokenEmbeddings : Option ((n : ℕ) × (c : ℕ) × (Fin n → Fin c → ℝ)))
    (freshEmbeddings : Fin (newVocabSize - R) → Fin C → ℝ)
    (freshLoraARows : Fin (newVocabSize - R) → Fin rank → ℝ) :
    Except DoRAError (DoRAEmbedding newVocabSize C rank) ×
      DoRAEmbedding R C rank :=
  (if newVocabSize ≤ R then .error .invalidArgument
   else
     match l.weights with
     | none => .error .notBuilt
     | some w =>
         let newEmb : Except DoRAError (Fin (newVocabSize - R) → Fin C → ℝ) :=
           match newTokenEmbeddings with
           | none => .ok freshEmbeddings
           | some ⟨n, c, M⟩ =>
               if h : n = newVocabSize - R ∧ c = C then
                 .ok (fun i j => M (Fin.cast h.1.symm i) (Fin.cast h.2.symm j))
               else .error .shapeMismatch
         match newEmb with
         | .error e => .error e
         | .ok newBlock =>
             .ok { alpha := l.alpha, sparse := l.sparse,
                   weights := some {
                     embeddings := expandRows w.embeddings newBlock,
                     lora_a := expandRows w.lora_a freshLoraARows,
                     lora_b := w.lora_b,
                     magnitude := w.magnitude } },
   l)

/-- `convert_embedding_to_dora` (source lines 618-657) applied to a built
source layer: the DoRA layer is built with the default initializers
(`lora_b` zeros, `magnitude` ones; the sampled `lora_a` and `embeddings`
initializer outputs are passed in as `A` and `embInit`), and then
`load_pretrained_embeddings` installs `W` and its column norms. -/
def convertEmbeddingToDora {R C : ℕ} (rank : ℕ) (W : Fin R → Fin C → ℝ)
    (alpha : ℝ) (A : Fin R → Fin rank → ℝ) (embInit : Fin R → Fin C → ℝ) :
    DoRAEmbedding R C rank :=
  (loadPretrainedEmbeddings
    { alpha := alpha, sparse := false,
      weights := some { embeddings := embInit, lora_a := A,
                        lora_b := fun _ _ => 0, magnitude := fun _ => 1 } }
    R C W).2

/-- Concrete built weight set for a 1x1 layer of rank 1. -/
def w0ex : DoRAWeights 1 1 1 :=
  { embeddings := fun _ _ => 2, lora_a := fun _ _ => 1,
    lora_b := fun _ _ => 0, magnitude := fun _ => 2 }

/-- Concrete built 1x1 layer of rank 1 with `alpha = 1`. -/
def l0ex : DoRAEmbedding 1 1 1 := { alpha := 1, sparse := false, weights := some w0ex }

/-- Concrete freshly-initialized embedding block for growing `l0ex` to 2 rows. -/
def fEex : Fin (2 - 1) → Fin 1 → ℝ := fun _ _ => 5

/-- Concrete freshly-initialized `lora_a` block for growing `l0ex` to 2 rows. -/
def fAex : Fin (2 - 1) → Fin 1 → ℝ := fun _ _ => 7

/-- The weight set produced by growing `l0ex` to 2 rows with fresh blocks
`fEex`, `fAex`. -/
def w1ex : DoRAWeights 2 1 1 :=
  { embeddings := expandRows w0ex.embeddings fEex,
    lora_a := expandRows w0ex.lora_a fAex,
    lora_b := w0ex.lora_b, magnitude := w0ex.magnitude }

/-- The layer produced by growing `l0ex` to 2 rows. -/
def l1ex : DoRAEmbedding 2 1 1 := { alpha := 1, sparse := false, weights := some w1ex }

/-- A concrete layer that has not been built (`weights = none`). -/
def unbuiltEx : DoRAEmbedding 2 2 1 := { alpha := 1, sparse := false, weights := none }

/-- Concrete 1x1 weight set with a negative magnitude entry. -/
def w5ex : DoRAWeights 1 1 1 :=
  { embeddings := fun _ _ => 3, lora_a := fun _ _ => 0,
    lora_b := fun _ _ => 0, magnitude := fun _ => -1 }

/-- Concrete 1x1 weight set with a nonnegative magnitude entry. -/
def w5posEx : DoRAWeights 1 1 1 :=
  { embeddings := fun _ _ => 3, lora_a := fun _ _ => 0,
    lora_b := fun _ _ => 0, magnitude := fun _ => 2 }

/-- Concrete 1x1 weight set with zero magnitude. -/
def w6ex : DoRAWeights 1 1 1 :=
  { embeddings := fun _ _ => 3, lora_a := fun _ _ => 1,
    lora_b := fun _ _ => 1, magnitude := fun _ => 0 }

/-- A 1x1 matrix whose single column has norm `1e-9`, strictly between 0 and
the `1e-8` floor. -/
def wTiny : Fin 1 → Fin 1 → ℝ := fun _ _ => 1e-9

/-- A well-conditioned 1x1 matrix (column norm 2, above the floor). -/
def wGood : Fin 1 → Fin 1 → ℝ := fun _ _ => 2

end

/- ------------------------------------------------------------------ -/
/- Helper lemmas                                                      -/
/- ------------------------------------------------------------------ -/

theorem epsFloor_pos : (0 : ℝ) < epsFloor := by norm_num [epsFloor]

theorem columnNorms_eq_zero {R C : ℕ} {M : Fin R → Fin C → ℝ} {j : Fin C}
    (h : columnNorms M j = 0) (i : Fin R) : M i j = 0 := by
  unfold columnNorms at h
  have hnn : (0 : ℝ) ≤ ∑ i, M i j ^ 2 :=
    Finset.sum_nonneg fun i _ => sq_nonneg _
  have hsum : (∑ i, M i j ^ 2) = 0 := (Real.sqrt_eq_zero hnn).mp h
  have hterm := (Finset.sum_eq_zero_iff_of_nonneg
    (fun i _ => sq_nonneg (M i j))).mp hsum i (Finset.mem_univ i)
  exact (pow_eq_zero_iff (two_ne_zero)).mp hterm

theorem expandRows_head {R V : ℕ} {α : Type} (h : R ≤ V) (X : Fin R → α)
    (Y : Fin (V - R) → α) (i : Fin R) :
    expandRows X Y (Fin.castLE h i) = X i := by
  unfold expandRows
  rw [dif_pos (show ((Fin.castLE h i : Fin V) : ℕ) < R from i.isLt)]
  exact congrArg X (Fin.eta i i.isLt)

theorem finOneEqZero (j : Fin 1) : j = 0 := Subsingleton.elim j 0

/-- Loading a matrix of the matching shape into a built layer succeeds and
installs the matrix together with its column norms as the magnitude. -/
theorem loadPretrained_matched {R C rank : ℕ} (a : ℝ) (sp : Bool)
    (E0 : Fin R → Fin C → ℝ) (A : Fin R → Fin rank → ℝ)
    (B : Fin rank → Fin C → ℝ) (m : Fin C → ℝ) (P : Fin R → Fin C → ℝ) :
    loadPretrainedEmbeddings
      { alpha := a, sparse := sp,
        weights := some { embeddings := E0, lora_a := A,
                          lora_b := B, magnitude := m } } R C P =
    (Except.ok (),
      { alpha := a, sparse := sp,
        weights := some { embeddings := P, lora_a := A,
                          lora_b := B, magnitude := columnNorms P } }) := by
  dsimp only [loadPretrainedEmbeddings]
  rw [dif_pos (⟨rfl, rfl⟩ : R = R ∧ C = C)]
  rfl

/-- With `lora_b = 0` the combined matrix collapses to the base matrix. -/
theorem combined_of_zero_b {R C rank : ℕ} (W : Fin R → Fin C → ℝ)
    (A : Fin R → Fin rank → ℝ) (s : ℝ) :
    combinedEmbeddings W A (fun _ _ => (0 : ℝ)) s = W := by
  funext i j
  simp [combinedEmbeddings, loraAdaptation]

theorem wGood_colnorm : columnNorms wGood 0 = 2 := by
  unfold columnNorms wGood
  rw [show (∑ i : Fin 1, ((2 : ℝ)) ^ 2) = 2 ^ 2 by simp]
  exact Real.sqrt_sq (by norm_num)

theorem wTiny_colnorm : columnNorms wTiny 0 = 1e-9 := by
  unfold columnNorms wTiny
  rw [show (∑ i : Fin 1, ((1e-9 : ℝ)) ^ 2) = (1e-9 : ℝ) ^ 2 by simp]
  exact Real.sqrt_sq (by norm_num)

theorem w5pos_combined :
    combinedEmbeddings w5posEx.embeddings w5posEx.lora_a w5posEx.lora_b 1 =
      w5posEx.embeddings :=
  combined_of_zero_b _ _ _

theorem w5pos_colnorm :
    columnNorms (combinedEmbeddings w5posEx.embeddings w5posEx.lora_a
      w5posEx.lora_b 1) 0 = 3 := by
  rw [w5pos_combined]
  unfold columnNorms w5posEx
  rw [show (∑ i : Fin 1, ((3 : ℝ)) ^ 2) = 3 ^ 2 by simp]
  exact Real.sqrt_sq (by norm_num)

/- ------------------------------------------------------------------ -/
/- Claim theorems                                                     -/
/- ------------------------------------------------------------------ -/

/-- Claim C1 (counterexample): the round-trip claim fails as universally
stated.  For the 1x1 matrix `[[1e-9]]` the single column norm `1e-9` lies
strictly between 0 and the `1e-8` floor, so the effective matrix after
conversion is `[[1e-10]]`, off by a relative error of 0.9, far beyond
`rtol = 1e-5`. -/
theorem conversion_roundtrip_counterexample :
    ∃ E, getEffectiveEmbeddingsOp
        (convertEmbeddingToDora 1 wTiny 1 (fun _ _ => 0) (fun _ _ => 0)) =
        Except.ok E ∧
      ¬ (|E 0 0 - wTiny 0 0| ≤ 1e-5 * |wTiny 0 0|) := by
  unfold convertEmbeddingToDora
  rw [loadPretrained_matched]
  refine ⟨_, rfl, ?_⟩
  dsimp only
  unfold getEffectiveEmbeddings flooredColumnNorms
  rw [combined_of_zero_b, wTiny_colnorm]
  rw [max_eq_right (by norm_num [epsFloor] : (1e-9 : ℝ) ≤ epsFloor)]
  show ¬ (|(1e-9 : ℝ) / epsFloor * 1e-9 - 1e-9| ≤ 1e-5 * |(1e-9 : ℝ)|)
  rw [abs_of_nonneg (by norm_num : (0 : ℝ) ≤ 1e-9)]
  rw [abs_of_nonpos
    (by norm_num [epsFloor] : ((1e-9 : ℝ) / epsFloor * 1e-9 - 1e-9) ≤ 0)]
  norm_num [epsFloor]

/-- Claim C1 (amended): for every dense matrix `W` each of whose column
norms is either zero or at least the `1e-8` floor, converting `W` (as
`convert_embedding_to_dora` does on a built layer: `W0 := W`, `B := 0`,
`m :=` column norms of `W`) and recomputing the effective matrix returns
`W` within `rtol = 1e-5` (indeed exactly). -/
theorem conversion_roundtrip {R C rank : ℕ} (W : Fin R → Fin C → ℝ) (a : ℝ)
    (A : Fin R → Fin rank → ℝ) (embInit : Fin R → Fin C → ℝ)
    (hR : 1 ≤ R) (hC : 1 ≤ C) (hrank : 1 ≤ rank) (ha : 0 < a)
    (hcols : ∀ j, columnNorms W j = 0 ∨ epsFloor ≤ columnNorms W j) :
    ∃ E, getEffectiveEmbeddingsOp (convertEmbeddingToDora rank W a A embInit) =
        Except.ok E ∧
      ∀ i j, |E i j - W i j| ≤ 1e-5 * |W i j| := by
  unfold convertEmbeddingToDora
  rw [loadPretrained_matched]
  refine ⟨_, rfl, ?_⟩
  intro i j
  dsimp only
  unfold getEffectiveEmbeddings flooredColumnNorms
  rw [combined_of_zero_b]
  rcases hcols j with h0 | hge
  · rw [columnNorms_eq_zero h0 i, h0]
    simp
  · rw [max_eq_left hge,
      div_mul_cancel₀ _ (ne_of_gt (lt_of_lt_of_le epsFloor_pos hge)),
      sub_self, abs_zero]
    positivity

/-- Claim C1 (witness): concrete instance of the amended round trip at the
1x1 matrix `[[2]]`. -/
theorem conversion_roundtrip_witness :
    ∃ E, getEffectiveEmbeddingsOp
        (convertEmbeddingToDora 1 wGood 1 (fun _ _ => 0) (fun _ _ => 0)) =
        Except.ok E ∧
      ∀ i j, |E i j - wGood i j| ≤ 1e-5 * |wGood i j| :=
  conversion_roundtrip wGood 1 (fun _ _ => 0) (fun _ _ => 0)
    (le_refl 1) (le_refl 1) (le_refl 1) one_pos
    (fun j => Or.inr (by
      rw [finOneEqZero j, wGood_colnorm]; norm_num [epsFloor]))

/-- Claim C5 (counterexample): the column-norm invariant fails as stated for
decompositions with a negative magnitude entry, even when the raw column
norm exceeds the floor: with `W0 = [[3]]`, `A = B = 0`, `m = [-1]`, the raw
column norm is 3 > 1e-8 yet the column norm of the effective matrix is
`1 ≠ -1 = m`. -/
theorem column_norm_invariant_counterexample :
    epsFloor < columnNorms (combinedEmbeddings w5ex.embeddings w5ex.lora_a
      w5ex.lora_b 1) 0 ∧
    columnNorms (getEffectiveEmbeddings w5ex.embeddings w5ex.lora_a
      w5ex.lora_b w5ex.magnitude 1) 0 ≠ w5ex.magnitude 0 := by
  have hcmb : combinedEmbeddings w5ex.embeddings w5ex.lora_a w5ex.lora_b 1 =
      w5ex.embeddings := combined_of_zero_b _ _ _
  have hcol : columnNorms (combinedEmbeddings w5ex.embeddings w5ex.lora_a
      w5ex.lora_b 1) 0 = 3 := by
    rw [hcmb]
    unfold columnNorms w5ex
    rw [show (∑ i : Fin 1, ((3 : ℝ)) ^ 2) = 3 ^ 2 by simp]
    exact Real.sqrt_sq (by norm_num)
  constructor
  · rw [hcol]; norm_num [epsFloor]
  · have hE : getEffectiveEmbeddings w5ex.embeddings w5ex.lora_a w5ex.lora_b
        w5ex.magnitude 1 = fun _ _ => (-1 : ℝ) := by
      funext i j
      unfold getEffectiveEmbeddings flooredColumnNorms
      rw [finOneEqZero j, hcol, hcmb]
      rw [max_eq_left (by norm_num [epsFloor] : epsFloor ≤ (3 : ℝ))]
      show (3 : ℝ) / 3 * (-1) = -1
      norm_num
    rw [hE]
    unfold columnNorms
    rw [show (∑ i : Fin 1, ((-1 : ℝ)) ^ 2) = 1 by simp]
    rw [Real.sqrt_one]
    show (1 : ℝ) ≠ w5ex.magnitude 0
    norm_num [w5ex]

/-- Claim C5 (amended): for every built decomposition whose raw column norm
exceeds the `1e-8` floor at column `j`, the column-wise L2 norm of the
effective matrix equals `|m j|`; it equals `m j` itself exactly when
`m j ≥ 0`. -/
theorem column_norm_invariant {R C rank : ℕ} (W0 : Fin R → Fin C → ℝ)
    (A : Fin R → Fin rank → ℝ) (B : Fin rank → Fin C → ℝ)
    (m : Fin C → ℝ) (s : ℝ) (j : Fin C)
    (hn : epsFloor < columnNorms (combinedEmbeddings W0 A B s) j) :
    columnNorms (getEffectiveEmbeddings W0 A B m s) j = |m j| := by
  have hraw : 0 < columnNorms (combinedEmbeddings W0 A B s) j :=
    lt_trans epsFloor_pos hn
  have hfl : flooredColumnNorms (combinedEmbeddings W0 A B s) j =
      columnNorms (combinedEmbeddings W0 A B s) j := max_eq_left hn.le
  have key : ∀ i : Fin R, getEffectiveEmbeddings W0 A B m s i j ^ 2 =
      (m j / columnNorms (combinedEmbeddings W0 A B s) j) ^ 2 *
        combinedEmbeddings W0 A B s i j ^ 2 := by
    intro i
    unfold getEffectiveEmbeddings
    rw [hfl]
    ring
  calc columnNorms (getEffectiveEmbeddings W0 A B m s) j
      = Real.sqrt (∑ i, getEffectiveEmbeddings W0 A B m s i j ^ 2) := rfl
    _ = Real.sqrt ((m j / columnNorms (combinedEmbeddings W0 A B s) j) ^ 2 *
          ∑ i, combinedEmbeddings W0 A B s i j ^ 2) := by
        rw [Finset.mul_sum]
        exact congrArg Real.sqrt (Finset.sum_congr rfl fun i _ => key i)
    _ = |m j / columnNorms (combinedEmbeddings W0 A B s) j| *
          Real.sqrt (∑ i, combinedEmbeddings W0 A B s i j ^ 2) := by
        rw [Real.sqrt_mul (sq_nonneg _), Real.sqrt_sq_eq_abs]
    _ = |m j| / columnNorms (combinedEmbeddings W0 A B s) j *
          columnNorms (combinedEmbeddings W0 A B s) j := by
        rw [abs_div, abs_of_pos hraw]; rfl
    _ = |m j| := div_mul_cancel₀ _ (ne_of_gt hraw)

/-- Claim C5 (witness): concrete instance of the amended invariant at a 1x1
decomposition with `W0 = [[3]]`, `A = B = 0`, `m = [2]`. -/
theorem column_norm_invariant_witness :
    columnNorms (getEffectiveEmbeddings w5posEx.embeddings w5posEx.lora_a
      w5posEx.lora_b w5posEx.magnitude 1) 0 = |w5posEx.magnitude 0| :=
  column_norm_invariant _ _ _ _ _ 0
    (by rw [w5pos_colnorm]; norm_num [epsFloor])

/-- Claim C6: if the magnitude vector is zero, `_get_effective_embeddings`
returns the zero matrix for any `W0`, `A`, `B` and scaling. -/
theorem magnitude_zero_property {R C rank : ℕ} (W0 : Fin R → Fin C → ℝ)
    (A : Fin R → Fin rank → ℝ) (B : Fin rank → Fin C → ℝ)
    (m : Fin C → ℝ) (s : ℝ) (hm : ∀ j, m j = 0) (i : Fin R) (j : Fin C) :
    getEffectiveEmbeddings W0 A B m s i j = 0 := by
  unfold getEffectiveEmbeddings
  rw [hm j, mul_zero]

/-- Claim C6 (witness): concrete instance at the 1x1 decomposition `w6ex`
whose magnitude is the zero vector. -/
theorem magnitude_zero_property_witness :
    getEffectiveEmbeddings w6ex.embeddings w6ex.lora_a w6ex.lora_b
      w6ex.magnitude 1 0 0 = 0 :=
  magnitude_zero_property _ _ _ _ _ (fun _ => rfl) 0 0

/-- Claim C3 (counterexample): `merge_weights` invoked on an un-built layer
does not report the `NotBuilt` error — the source method has no built-check
and instead crashes operating on the `None` weight attributes. -/
theorem not_built_counterexample :
    mergeWeights unbuiltEx ≠ Except.error DoRAError.notBuilt ∧
    mergeWeights unbuiltEx = Except.error DoRAError.noneTypeError := by
  refine ⟨?_, rfl⟩
  simp [mergeWeights, getEffectiveEmbeddingsOp, unbuiltEx]

/-- Claim C3 (amended): before the build event, `expand_vocabulary` (called
with a valid target size) reports the deliberate `NotBuilt` error, while
`get_effective_embeddings` and `merge_weights` perform no built-check and
fail with the host-language type error from operating on absent weights. -/
theorem not_built_behavior {R C rank : ℕ} (l : DoRAEmbedding R C rank)
    (hl : l.weights = none) (V : ℕ) (hV : R < V)
    (fE : Fin (V - R) → Fin C → ℝ) (fA : Fin (V - R) → Fin rank → ℝ) :
    (expandVocabulary l V none fE fA).1 = Except.error DoRAError.notBuilt ∧
    getEffectiveEmbeddingsOp l = Except.error DoRAError.noneTypeError ∧
    mergeWeights l = Except.error DoRAError.noneTypeError := by
  refine ⟨?_, ?_, ?_⟩
  · dsimp only [expandVocabulary]
    rw [if_neg (not_le.mpr hV), hl]
  · dsimp only [getEffectiveEmbeddingsOp]
    rw [hl]
  · dsimp only [mergeWeights, getEffectiveEmbeddingsOp]
    rw [hl]

/-- Claim C3 (witness): concrete un-built layer exercising the amended
behavior. -/
theorem not_built_behavior_witness :
    (expandVocabulary unbuiltEx 3 none (fun _ _ => 0) (fun _ _ => 0)).1 =
        Except.error DoRAError.notBuilt ∧
    getEffectiveEmbeddingsOp unbuiltEx = Except.error DoRAError.noneTypeError ∧
    mergeWeights unbuiltEx = Except.error DoRAError.noneTypeError :=
  not_built_behavior unbuiltEx rfl 3 (by decide) (fun _ _ => 0) (fun _ _ => 0)

/-- Claim C4: growing a built decomposition from `R` to `V > R` rows
preserves the first `R` rows of `W0` and `A` and copies `B` and `m`
verbatim, regardless of whether the new-row block for `W0` is
caller-supplied (`nt = some ...`) or freshly initialized (`nt = none`). -/
theorem growth_preserves_head_rows {R C rank : ℕ} (l : DoRAEmbedding R C rank)
    (w : DoRAWeights R C rank) (hw : l.weights = some w) (V : ℕ) (hV : R < V)
    (nt : Option ((n : ℕ) × (c : ℕ) × (Fin n → Fin c → ℝ)))
    (fE : Fin (V - R) → Fin C → ℝ) (fA : Fin (V - R) → Fin rank → ℝ)
    (l2 : DoRAEmbedding V C rank)
    (hok : (expandVocabulary l V nt fE fA).1 = Except.ok l2) :
    ∃ w2, l2.weights = some w2 ∧
      (∀ (i : Fin R) (j : Fin C),
        w2.embeddings (Fin.castLE hV.le i) j = w.embeddings i j) ∧
      (∀ (i : Fin R) (k : Fin rank),
        w2.lora_a (Fin.castLE hV.le i) k = w.lora_a i k) ∧
      w2.lora_b = w.lora_b ∧ w2.magnitude = w.magnitude := by
  dsimp only [expandVocabulary] at hok
  rw [if_neg (not_le.mpr hV), hw] at hok
  rcases nt with _ | ⟨n, c, M⟩
  · dsimp only at hok
    injection hok with h
    subst h
    exact ⟨_, rfl,
      (fun i j => congrFun (expandRows_head hV.le w.embeddings fE i) j),
      (fun i k => congrFun (expandRows_head hV.le w.lora_a fA i) k),
      rfl, rfl⟩
  · dsimp only at hok
    by_cases hsh : n = V - R ∧ c = C
    · rw [dif_pos hsh] at hok
      dsimp only at hok
      injection hok with h
      subst h
      exact ⟨_, rfl,
        (fun i j => congrFun (expandRows_head hV.le w.embeddings
          (fun i2 j2 => M (Fin.cast hsh.1.symm i2) (Fin.cast hsh.2.symm j2))
          i) j),
        (fun i k => congrFun (expandRows_head hV.le w.lora_a fA i) k),
        rfl, rfl⟩
    · rw [dif_neg hsh] at hok
      dsimp only at hok
      exact Except.noConfusion hok

/-- Claim C4 (witness): concrete growth of the built 1x1 layer `l0ex` to 2
rows, with fresh blocks `fEex`, `fAex`, reaching the layer `l1ex`. -/
theorem growth_preserves_head_rows_witness :
    ∃ w2, l1ex.weights = some w2 ∧
      (∀ (i : Fin 1) (j : Fin 1),
        w2.embeddings (Fin.castLE (Nat.le_succ 1) i) j = w0ex.embeddings i j) ∧
      (∀ (i : Fin 1) (k : Fin 1),
        w2.lora_a (Fin.castLE (Nat.le_succ 1) i) k = w0ex.lora_a i k) ∧
      w2.lora_b = w0ex.lora_b ∧ w2.magnitude = w0ex.magnitude :=
  growth_preserves_head_rows l0ex w0ex rfl 2 (Nat.lt_succ_self 1) none
    fEex fAex l1ex rfl

/-- Claim C7: on a built layer, `load_pretrained_embeddings` with a matrix
of the wrong shape and `expand_vocabulary` with a wrong-shaped
caller-supplied new-token block both abort with `ShapeMismatch` and return
the layer state unchanged (no partial mutation). -/
theorem shape_mismatch_atomicity {R C rank : ℕ} (l : DoRAEmbedding R C rank)
    (w : DoRAWeights R C rank) (hw : l.weights = some w)
    (Rp Cp : ℕ) (P : Fin Rp → Fin Cp → ℝ) (hm1 : ¬(Rp = R ∧ Cp = C))
    (V : ℕ) (hV : R < V) (n c : ℕ) (M : Fin n → Fin c → ℝ)
    (hm2 : ¬(n = V - R ∧ c = C))
    (fE : Fin (V - R) → Fin C → ℝ) (fA : Fin (V - R) → Fin rank → ℝ) :
    loadPretrainedEmbeddings l Rp Cp P =
      (Except.error DoRAError.shapeMismatch, l) ∧
    expandVocabulary l V (some ⟨n, c, M⟩) fE fA =
      (Except.error DoRAError.shapeMismatch, l) := by
  constructor
  · dsimp only [loadPretrainedEmbeddings]
    rw [hw]
    dsimp only
    rw [dif_neg hm1]
  · dsimp only [expandVocabulary]
    rw [if_neg (not_le.mpr hV), hw]
    dsimp only
    rw [dif_neg hm2]

/-- Claim C7 (witness): concrete wrong-shape load (2x1 into a 1x1 layer) and
wrong-shape growth block (5 rows where 1 is expected) on the built layer
`l0ex`. -/
theorem shape_mismatch_atomicity_witness :
    loadPretrainedEmbeddings l0ex 2 1 (fun _ _ => 0) =
      (Except.error DoRAError.shapeMismatch, l0ex) ∧
    expandVocabulary l0ex 2 (some ⟨5, 1, fun _ _ => 0⟩) fEex fAex =
      (Except.error DoRAError.shapeMismatch, l0ex) :=
  shape_mismatch_atomicity l0ex w0ex rfl 2 1 (fun _ _ => 0) (by decide)
    2 (by decide) 5 1 (fun _ _ => 0) (by decide) fEex fAex

/-- Claim C9: `expand_vocabulary` on a built layer returns an entirely new
layer — with its own freshly-assembled `W0`, `A`, `B`, `m` and the copied
configuration — while the original layer (its weights and configuration)
is returned unchanged by the call. -/
theorem growth_immutability {R C rank : ℕ} (l : DoRAEmbedding R C rank)
    (w : DoRAWeights R C rank) (hw : l.weights = some w) (V : ℕ) (hV : R < V)
    (fE : Fin (V - R) → Fin C → ℝ) (fA : Fin (V - R) → Fin rank → ℝ) :
    (expandVocabulary l V none fE fA).2 = l ∧
    (expandVocabulary l V none fE fA).1 = Except.ok
      { alpha := l.alpha, sparse := l.sparse,
        weights := some { embeddings := expandRows w.embeddings fE,
                          lora_a := expandRows w.lora_a fA,
                          lora_b := w.lora_b, magnitude := w.magnitude } } := by
  constructor
  · rfl
  · dsimp only [expandVocabulary]
    rw [if_neg (not_le.mpr hV), hw]

/-- Claim C9 (witness): concrete immutable growth of `l0ex` to 2 rows. -/
theorem growth_immutability_witness :
    (expandVocabulary l0ex 2 none fEex fAex).2 = l0ex ∧
    (expandVocabulary l0ex 2 none fEex fAex).1 = Except.ok
      { alpha := l0ex.alpha, sparse := l0ex.sparse,
        weights := some { embeddings := expandRows w0ex.embeddings fEex,
                          lora_a := expandRows w0ex.lora_a fAex,
                          lora_b := w0ex.lora_b,
                          magnitude := w0ex.magnitude } } :=
  growth_immutability l0ex w0ex rfl 2 (by decide) fEex fAex

/-- Claim C2: `_get_effective_embeddings` returns exactly the matrix computed
by the specification's six-step algorithm (delta, combine, column norm,
`1e-8` floor, normalize, magnitude rescale), for every decomposition and
every `rank` — including `rank` exceeding `R` or `C`, since the statement
quantifies over all three dimensions with no constraint. -/
theorem effective_matrix_algorithm {R C rank : ℕ} (W0 : Fin R → Fin C → ℝ)
    (A : Fin R → Fin rank → ℝ) (B : Fin rank → Fin C → ℝ)
    (m : Fin C → ℝ) (s : ℝ) :
    getEffectiveEmbeddings W0 A B m s = effectiveMatrixSpec W0 A B m s := rfl

/-- Claim C8: the per-column divisor used by `_get_effective_embeddings` is
floored at `1e-8`, hence strictly positive for every input, so the
normalization division is always well-defined. -/
theorem epsilon_floor_safety {R C rank : ℕ} (W0 : Fin R → Fin C → ℝ)
    (A : Fin R → Fin rank → ℝ) (B : Fin rank → Fin C → ℝ) (s : ℝ)
    (j : Fin C) :
    epsFloor ≤ flooredColumnNorms (combinedEmbeddings W0 A B s) j ∧
    0 < flooredColumnNorms (combinedEmbeddings W0 A B s) j :=
  ⟨le_max_right _ _, lt_of_lt_of_le epsFloor_pos (le_max_right _ _)⟩

/-- Claim C10: the `sparse` flag is a no-op in `call` — both branches perform
the identical dense lookup, so a layer with `sparse = true` returns exactly
the output of the same layer with `sparse = false` on the same weights and
inputs. -/
theorem sparse_flag_noop {R C rank : ℕ} (a : ℝ) (w : DoRAWeights R C rank)
    (inputs : List (Fin R)) :
    DoRAEmbedding.call { alpha := a, sparse := true, weights := some w } inputs =
    DoRAEmbedding.call { alpha := a, sparse := false, weights := some w } inputs := rfl
